import Mathlib

/-
  Verification of the canvas-mcp repository (a Python SDK + MCP server for the
  Canvas LMS API) against its natural-language specification.

  The Python source is shallowly embedded: JSON values become an inductive
  type, HTTP responses become a record (status, raw body, decoded JSON body,
  parsed Link-header relations), and each Python function under scrutiny
  becomes a total Lean function over those records.  Exceptions become
  explicit error constructors.
-/

mutual

/-- A JSON value as produced by Python's json decoding.  Numbers are
restricted to integers, which covers every JSON value appearing in the
repository's code paths under analysis. -/
inductive Json where
  | null
  | bool (b : Bool)
  | num (n : Int)
  | str (s : String)
  | arr (elems : JsonList)
  | obj (fields : JsonFields)
deriving Repr, DecidableEq

/-- A list of JSON values (a decoded JSON array / Python list). -/
inductive JsonList where
  | nil
  | cons (head : Json) (tail : JsonList)
deriving Repr, DecidableEq

/-- Key-value fields of a JSON object (a decoded Python dict). -/
inductive JsonFields where
  | nil
  | cons (key : String) (value : Json) (tail : JsonFields)
deriving Repr, DecidableEq

end

/-- Python's `d.get(key)` / `key in d` on a decoded dict: the value at the
first matching key, if any. -/
def JsonFields.lookup (key : String) : JsonFields → Option Json
  | .nil => none
  | .cons k v rest => if k = key then some v else JsonFields.lookup key rest

/-- The keys of a decoded dict, in order. -/
def JsonFields.keys : JsonFields → List String
  | .nil => []
  | .cons k _ rest => k :: JsonFields.keys rest

/-- Python's `x in lst` when `x` is the string `s`: some element of the list
equals that string. -/
def JsonList.containsStr (s : String) : JsonList → Bool
  | .nil => false
  | .cons (.str t) rest => t = s || JsonList.containsStr s rest
  | .cons _ rest => JsonList.containsStr s rest

/-- View a decoded JSON array as a Lean list of its elements. -/
def JsonList.toList : JsonList → List Json
  | .nil => []
  | .cons v rest => v :: JsonList.toList rest

/-- Python truthiness (`bool(x)`) for decoded JSON values: `None`, `False`,
`0`, the empty string, the empty list and the empty dict are falsy,
everything else truthy. -/
def pyTruthy : Json → Bool
  | .null => false
  | .bool b => b
  | .num n => n != 0
  | .str s => !(s = "")
  | .arr .nil => false
  | .arr (.cons _ _) => true
  | .obj .nil => false
  | .obj (.cons _ _ _) => true

/-- Check whether the character list `pat` occurs at the head of `s`. -/
def leadsWith : List Char → List Char → Bool
  | [], _ => true
  | _ :: _, [] => false
  | a :: as, b :: bs => a = b && leadsWith as bs

/-- Occurrence of `pat` as a contiguous run anywhere in the character list. -/
def strContainsChars (pat : List Char) : List Char → Bool
  | [] => leadsWith pat []
  | c :: rest => leadsWith pat (c :: rest) || strContainsChars pat rest

/-- Python's `pat in s` on strings: substring containment. -/
def strContains (s pat : String) : Bool :=
  strContainsChars pat.data s.data

/-- The single quote character, `chr(39)`. -/
def quoteChar : Char := Char.ofNat 39

/-- Opening curly brace character, `chr(123)`. -/
def lbraceChar : Char := Char.ofNat 123

/-- Closing curly brace character, `chr(125)`. -/
def rbraceChar : Char := Char.ofNat 125

mutual

/-- Python's `repr()` of a decoded JSON value: strings are single-quoted,
dicts render as brace-wrapped `key: value` pairs with single-quoted keys.
(String escaping is not modelled; no input in this development contains
quote characters.) -/
def pyRepr : Json → String
  | .null => "None"
  | .bool b => if b then "True" else "False"
  | .num n => toString n
  | .str s => String.singleton quoteChar ++ s ++ String.singleton quoteChar
  | .arr elems => "[" ++ pyReprList elems ++ "]"
  | .obj fields =>
      String.singleton lbraceChar ++ pyReprFields fields ++ String.singleton rbraceChar

/-- Comma-joined `repr`s of list elements. -/
def pyReprList : JsonList → String
  | .nil => ""
  | .cons v .nil => pyRepr v
  | .cons v rest => pyRepr v ++ ", " ++ pyReprList rest

/-- Comma-joined `key: repr(value)` pairs of dict fields. -/
def pyReprFields : JsonFields → String
  | .nil => ""
  | .cons k v .nil =>
      String.singleton quoteChar ++ k ++ String.singleton quoteChar ++ ": " ++ pyRepr v
  | .cons k v rest =>
      String.singleton quoteChar ++ k ++ String.singleton quoteChar ++ ": " ++ pyRepr v
        ++ ", " ++ pyReprFields rest

end

/-- Python's `str()` of a decoded JSON value: like `repr`, except that a
string renders as itself without quotes. -/
def pyStr : Json → String
  | .str s => s
  | v => pyRepr v

/-- An HTTP response as seen through the `requests` library: status code, the
body decoded as text (`response.content` is empty iff this is empty), the
result of `response.json()` (`none` when decoding raises), and the parsed
`Link`-header relations (`response.links`, as a rel ↦ url association
list). -/
structure HttpResponse where
  status : Nat
  rawBody : String
  jsonBody : Option Json
  links : List (String × String)
deriving Repr, DecidableEq

/-- Which source the `message` attached to a raised `CanvasAPIError` came
from: `str(err)` of the underlying `HTTPError`, the response body decoded as
text, or the decoded body's `errors` field. -/
inductive ErrMsg where
  | transportText
  | bodyText
  | errorsField (v : Json)
deriving Repr, DecidableEq

/-- Outcome of `CanvasClient._request` (client.py lines 58-107): a parsed
JSON body, the explicit no-content `None`, a raised `CanvasAPIError`, or an
uncaught `JSONDecodeError` from `response.json()` on a success response whose
body is not JSON. -/
inductive ApiOutcome where
  | ok (v : Option Json)
  | apiError (statusCode : Nat) (message : ErrMsg)
  | jsonDecodeError
deriving Repr, DecidableEq

/-- Python falsiness of `content.strip()`: the decoded body text consists
entirely of whitespace (in particular, the empty string is blank). -/
def strBlank (s : String) : Bool :=
  s.data.all Char.isWhitespace

/-- The condition under which `requests.Response.raise_for_status` raises:
a 4xx client error or a 5xx server error. -/
def isHttpFailure (status : Nat) : Bool :=
  (400 ≤ status && status < 500) || (500 ≤ status && status < 600)

/-- A 2xx HTTP success status. -/
def is2xx (status : Nat) : Bool :=
  200 ≤ status && status < 300

/-- Embeds the error-message selection of client.py lines 94-101 (and its
verbatim copy at graphql_client.py lines 68-75).

Starting from `error_message = str(err)`, if the body is non-empty the code
tries `response.json()`; a decode failure lands in the bare `except` and
selects the body text.  On a decoded dict, `if 'errors' in error_data` tests
key membership and on success selects the `errors` value.  On a decoded list,
`in` tests element membership and a hit makes `error_data['errors']` raise
`TypeError`, which the bare `except` turns into the body text.  On a decoded
string, `in` tests substring containment with the same consequence.  On a
decoded number, boolean or `None`, the `in` test itself raises `TypeError`,
again caught by the bare `except`. -/
def httpErrorMessage (r : HttpResponse) : ErrMsg :=
  if r.rawBody = "" then .transportText
  else
    match r.jsonBody with
    | none => .bodyText
    | some (.obj fields) =>
        match fields.lookup "errors" with
        | some v => .errorsField v
        | none => .transportText
    | some (.arr elems) =>
        if elems.containsStr "errors" then .bodyText else .transportText
    | some (.str s) =>
        if strContains s "errors" then .bodyText else .transportText
    | some _ => .bodyText

/-- Embeds `CanvasClient._request` (client.py lines 87-107) as a function of
the transport-level response: `raise_for_status` raises exactly on 4xx/5xx,
in which case a `CanvasAPIError` carrying the response status and the
selected message is raised; otherwise a body that is non-empty and not
whitespace-only is decoded (an undecodable body propagates a
`JSONDecodeError`), and an empty or whitespace-only body returns `None`. -/
def canvasRequest (r : HttpResponse) : ApiOutcome :=
  if isHttpFailure r.status then
    .apiError r.status (httpErrorMessage r)
  else if r.rawBody ≠ "" && !strBlank r.rawBody then
    match r.jsonBody with
    | some v => .ok (some v)
    | none => .jsonDecodeError
  else .ok none

/-- Outcome of `CanvasGraphQLClient.query` (graphql_client.py lines 31-81):
the `data` field of the decoded body, a raised `CanvasAPIError`, or one of
the uncaught exceptions the code can hit on unusual bodies (a
`JSONDecodeError` from `response.json()`, a `TypeError` from `'errors' in
result` or `result['errors']` on a non-dict, or an `AttributeError` from
`result.get` on a non-dict). -/
inductive GqlOutcome where
  | ok (data : Json)
  | apiError (statusCode : Nat) (message : ErrMsg)
  | jsonDecodeError
  | typeError
  | attributeError
deriving Repr, DecidableEq

/-- Embeds `CanvasGraphQLClient.query` (graphql_client.py lines 55-81) as a
function of the transport-level response.  `raise_for_status` raises on
4xx/5xx and the `except` branch re-raises a `CanvasAPIError` with the same
message selection as the REST client.  Otherwise the body is decoded; on a
dict, the presence of an `errors` key (regardless of its value) raises a
`CanvasAPIError` whose message is that value and whose status code is the
response's (HTTP 200 on GraphQL semantic errors); without the key the `data`
field is returned, defaulting to the empty dict.  On a decoded list or
string, a positive `'errors' in result` test makes `result['errors']` raise
`TypeError`; a negative one makes `result.get` raise `AttributeError`.  On a
decoded number, boolean or `None`, the `in` test raises `TypeError`. -/
def graphqlQuery (r : HttpResponse) : GqlOutcome :=
  if isHttpFailure r.status then
    .apiError r.status (httpErrorMessage r)
  else
    match r.jsonBody with
    | none => .jsonDecodeError
    | some (.obj fields) =>
        match fields.lookup "errors" with
        | some v => .apiError r.status (.errorsField v)
        | none => .ok ((fields.lookup "data").getD (.obj .nil))
    | some (.arr elems) =>
        if elems.containsStr "errors" then .typeError else .attributeError
    | some (.str s) =>
        if strContains s "errors" then .typeError else .attributeError
    | some _ => .typeError

/-- Errors that abort a pagination run: a raised `CanvasAPIError` from a page
request, a `JSONDecodeError`, an `IndexError` from splitting a next-URL that
lacks the `/api/v1/` marker, or exhaustion of the loop fuel (never reached by
runs of length at least one, as proved below). -/
inductive ReqErr where
  | api (statusCode : Nat) (message : ErrMsg)
  | decodeFailure
  | splitOut
  | fuelOut
deriving Repr, DecidableEq

/-- A mock Canvas server: the transport-level response returned for a GET on
a given relative endpoint with given query parameters. -/
def Server : Type := String → List (String × Json) → HttpResponse

/-- Embeds `CanvasClient.get` as used by the paginator: issue the request and
hand back the decoded body.  Python returns `None` both for a no-content
response and for a body decoding to JSON `null`; the embedding merges the two
into `Json.null`, exactly as the running program cannot tell them apart. -/
def clientGet (srv : Server) (endpoint : String) (params : List (String × Json)) :
    Except ReqErr Json :=
  match canvasRequest (srv endpoint params) with
  | .ok none => .ok .null
  | .ok (some v) => .ok v
  | .apiError s m => .error (.api s m)
  | .jsonDecodeError => .error .decodeFailure

/-- Embeds the link-metadata probe of client.py lines 187-189: the code asks
`hasattr(response, 'links')` of the value returned by `self.get`, which is
the decoded JSON body (a Python list, dict, str, int, float, bool or None) —
none of which carries a `links` attribute, so the probe never finds link
metadata.  The `requests` library attaches `links` to the `Response` object,
which `_request` already consumed at line 91. -/
def jsonLinks : Json → Option (List (String × String)) :=
  fun _ => none

/-- The marker after which `paginate` extracts the relative endpoint from an
absolute next-page URL (`next_url.split('/api/v1/')[1]`). -/
def apiV1Marker : List Char := "/api/v1/".data

/-- Python's `s.split(marker)[1]`: the text after the first occurrence of the
marker, or `none` (an `IndexError`) when the marker does not occur. -/
def splitAfterMarker (marker : List Char) : List Char → Option (List Char)
  | [] => none
  | c :: rest =>
      if leadsWith marker (c :: rest) then some (List.drop marker.length (c :: rest))
      else splitAfterMarker marker rest

/-- Embeds the `while endpoint:` loop of `CanvasClient.paginate` (client.py
lines 178-203), with explicit fuel bounding the number of iterations.  The
result pairs the number of GET requests issued with the list of yielded
items.  Per iteration: a falsy (empty) endpoint ends the loop; a decoded list
yields its elements and then consults `jsonLinks` — absent link metadata
means `'next' not in links` and the loop breaks; with a `next` link the
relative endpoint after `/api/v1/` would be followed; a non-list decoded
value is yielded once and the loop breaks. -/
def paginateAux (srv : Server) (params : List (String × Json)) :
    Nat → String → Except ReqErr (Nat × List Json)
  | 0, _ => .error .fuelOut
  | fuel + 1, endpoint =>
    if endpoint = "" then .ok (0, [])
    else
      match clientGet srv endpoint params with
      | .error e => .error e
      | .ok (.arr items) =>
          match jsonLinks (.arr items) with
          | some links =>
              match links.lookup "next" with
              | some nextUrl =>
                  match splitAfterMarker apiV1Marker nextUrl.data with
                  | some rest =>
                      match paginateAux srv params fuel (String.mk rest) with
                      | .ok (n, more) => .ok (n + 1, items.toList ++ more)
                      | .error e => .error e
                  | none => .error .splitOut
              | none => .ok (1, items.toList)
          | none => .ok (1, items.toList)
      | .ok v => .ok (1, [v])
termination_by structural fuel => fuel

/-- Embeds `CanvasClient.paginate` (client.py lines 157-203): default
`per_page` to 100 when the caller did not set it, then run the page loop. -/
def paginate (srv : Server) (endpoint : String) (params : List (String × Json))
    (fuel : Nat) : Except ReqErr (Nat × List Json) :=
  let params := if (params.lookup "per_page").isSome then params
                else params ++ [("per_page", .num 100)]
  paginateAux srv params fuel endpoint

/-- The message-resolution chain of claim C2, read literally: the `errors`
field when the body is JSON-decodable and contains that key; otherwise, when
a body is present, the raw response body decoded as text; otherwise the
underlying transport error text. -/
def claimC2Message (r : HttpResponse) : ErrMsg :=
  match r.jsonBody with
  | some (.obj fields) =>
      match fields.lookup "errors" with
      | some v => .errorsField v
      | none => if r.rawBody = "" then .transportText else .bodyText
  | _ => if r.rawBody = "" then .transportText else .bodyText

/-- Claim C2 read literally at one response: 2xx with a non-empty body
returns the parsed JSON, 2xx with an empty body returns the no-content
sentinel, and any non-2xx response raises an `ApiError` carrying the HTTP
status and the message resolved by `claimC2Message`. -/
def claimC2check (r : HttpResponse) : Bool :=
  if is2xx r.status then
    if r.rawBody = "" then decide (canvasRequest r = .ok none)
    else r.jsonBody.isSome && decide (canvasRequest r = .ok r.jsonBody)
  else decide (canvasRequest r = .apiError r.status (claimC2Message r))

/-- The message-resolution chain of claim C2 as amended to match the code:
the `errors` field when the body decodes to a JSON object containing that
key; the raw body text when a non-empty body fails to decode as JSON; and
the transport error text otherwise (empty body, or a decoded object without
an `errors` key). -/
def amendedC2Message (r : HttpResponse) : ErrMsg :=
  match r.jsonBody with
  | some (.obj fields) =>
      match fields.lookup "errors" with
      | some v => .errorsField v
      | none => .transportText
  | _ => if r.rawBody = "" then .transportText else .bodyText

/-- Claim C2 as amended, as a reference outcome function: only 4xx/5xx
statuses raise (with the amended message selection); otherwise an empty or
whitespace-only body returns the no-content sentinel, a decodable body
returns its parsed JSON, and an undecodable non-blank body propagates a
decode error. -/
def amendedC2Outcome (r : HttpResponse) : ApiOutcome :=
  if isHttpFailure r.status then .apiError r.status (amendedC2Message r)
  else if strBlank r.rawBody then .ok none
  else
    match r.jsonBody with
    | some v => .ok (some v)
    | none => .jsonDecodeError

/-- Whether a GraphQL outcome is a raised `CanvasAPIError`. -/
def isGqlApiError : GqlOutcome → Bool
  | .apiError _ _ => true
  | _ => false

/-- Claim C3 read literally at one response: `query` raises `ApiError`
exactly when the transport call fails or the decoded body contains a
non-empty `errors` array, and otherwise returns the body's `data` field.
(The claim says nothing about bodies that decode to non-objects.) -/
def claimC3check (r : HttpResponse) : Bool :=
  if isHttpFailure r.status then isGqlApiError (graphqlQuery r)
  else
    match r.jsonBody with
    | some (.obj fields) =>
        match fields.lookup "errors" with
        | some (.arr (.cons _ _)) => isGqlApiError (graphqlQuery r)
        | _ => decide (graphqlQuery r = .ok ((fields.lookup "data").getD (.obj .nil)))
    | _ => true

/-- Embeds `BaseResource._get_item_id` (base.py lines 17-28): a dict carrying
an `id` key yields `str` of that value; anything else yields `str` of the
item itself. -/
def base_get_item_id (item : Json) : String :=
  match item with
  | .obj fields =>
      match fields.lookup "id" with
      | some v => pyStr v
      | none => pyStr (.obj fields)
  | v => pyStr v

/-- Embeds the override `Assignments._get_item_id` (assignments.py lines
8-10): `str(item_id) if item_id is not None else None` — no `id`-field
extraction at all. -/
def assignments_get_item_id (item : Json) : Option String :=
  if item = .null then none else some (pyStr item)

/-- Build a JSON array of strings (the `include` list forwarded as
`include[]`). -/
def jsonListOfStrings : List String → JsonList
  | [] => .nil
  | s :: rest => .cons (.str s) (jsonListOfStrings rest)

/-- Build a decoded JSON array from a Lean list of values. -/
def jsonListOfList : List Json → JsonList
  | [] => .nil
  | v :: rest => .cons v (jsonListOfList rest)

/-- The keyword arguments of `Assignments.list` (assignments.py lines
12-20). -/
structure AssignListArgs where
  includeOpt : Option (List String)
  page : Option Int
  perPage : Option Int
  orderBy : Option String
  bucket : Option String
deriving Repr

/-- Embeds the query-parameter assembly of `Assignments.list`
(assignments.py lines 35-50): `if include:` (truthiness — `None` and the
empty list add nothing), `if page is not None:`, `if per_page is not None:`,
`if order_by:` and `if bucket:` (truthiness — `None` and the empty string
add nothing). -/
def assignmentsListParams (a : AssignListArgs) : List (String × Json) :=
  let params : List (String × Json) := []
  let params := match a.includeOpt with
    | some (s :: rest) => params ++ [("include[]", .arr (jsonListOfStrings (s :: rest)))]
    | _ => params
  let params := match a.page with
    | some p => params ++ [("page", .num p)]
    | none => params
  let params := match a.perPage with
    | some pp => params ++ [("per_page", .num pp)]
    | none => params
  let params := match a.orderBy with
    | some s => if s = "" then params else params ++ [("order_by", .str s)]
    | none => params
  match a.bucket with
  | some s => if s = "" then params else params ++ [("bucket", .str s)]
  | none => params

/-- The endpoint `Assignments.list` requests (assignments.py lines 34 and
52-55): the course id is coerced through the `Assignments` override, and
Python renders a `None` id as the literal text `None` inside the f-string. -/
def assignmentsEndpoint (course_id : Json) : String :=
  "courses/" ++ (match assignments_get_item_id course_id with
    | some s => s
    | none => "None") ++ "/assignments"

/-- Embeds `Assignments.list` (assignments.py lines 12-57): assemble the
params, drain the paginator on the course endpoint into a list, and wrap it
as a single-key dict `assignments ↦ items`. -/
def assignments_list (srv : Server) (course_id : Json) (a : AssignListArgs)
    (fuel : Nat) : Except ReqErr Json :=
  match paginate srv (assignmentsEndpoint course_id)
      (assignmentsListParams a) fuel with
  | .ok (_, items) => .ok (.obj (.cons "assignments" (.arr (jsonListOfList items)) .nil))
  | .error e => .error e

/-- The network calls `Files.upload` can issue: the metadata-initialization
POST to the API host, and the direct POST to the pre-signed upload URL. -/
inductive UploadCall where
  | initPost
  | uploadPost (url : Json)
deriving Repr, DecidableEq

/-- Outcome of `Files.upload`: the upload host's decoded JSON body, a raised
`ValueError` (the missing-upload-URL guard), a raised `HTTPError` from
`upload_response.raise_for_status()`, a `JSONDecodeError`, a propagated
`CanvasAPIError` from the init POST, or an `AttributeError` from `.get` on a
non-dict init body. -/
inductive UploadOutcome where
  | ok (v : Json)
  | valueError (msg : String)
  | httpError (status : Nat)
  | decodeFailure
  | apiError (statusCode : Nat) (message : ErrMsg)
  | attributeError
deriving Repr, DecidableEq

/-- The message of the `ValueError` raised when the init response lacks a
usable upload URL (files.py line 113). -/
def uploadUrlMissingMsg : String := "Failed to get upload URL from Canvas API"

/-- Embeds `Files.upload` (files.py lines 76-125) as a function of the init
POST's outcome and of the upload host's response to a POST at a given URL.
The returned pair lists the network calls issued in order alongside the
final outcome.  After a successful init POST, `init_response.get('upload_url')`
is read (an `AttributeError` on a non-dict body); a missing or falsy value
raises the `ValueError` before any upload POST; otherwise the upload POST is
issued, `raise_for_status` checks it, and its decoded JSON body is
returned. -/
def files_upload (initOutcome : ApiOutcome) (uploadHost : Json → HttpResponse) :
    List UploadCall × UploadOutcome :=
  match initOutcome with
  | .apiError s m => ([.initPost], .apiError s m)
  | .jsonDecodeError => ([.initPost], .decodeFailure)
  | .ok v =>
      match v.getD .null with
      | .obj fields =>
          match fields.lookup "upload_url" with
          | none => ([.initPost], .valueError uploadUrlMissingMsg)
          | some u =>
              if pyTruthy u = false then ([.initPost], .valueError uploadUrlMissingMsg)
              else
                let r := uploadHost u
                ([.initPost, .uploadPost u],
                  if isHttpFailure r.status then .httpError r.status
                  else
                    match r.jsonBody with
                    | some j => .ok j
                    | none => .decodeFailure)
      | _ => ([.initPost], .attributeError)

/-- Credentials held by a constructed `CanvasClient`. -/
structure ClientConfig where
  api_token : String
  api_url : String
deriving Repr, DecidableEq

/-- Python falsiness of an optional string argument: absent (`None`) or
empty. -/
def pyFalsyOptStr : Option String → Bool
  | none => true
  | some s => s = ""

/-- Python's `s.endswith('/')`. -/
def strEndsWithSlash (s : String) : Bool :=
  match s.data.getLast? with
  | some c => c = '/'
  | none => false

/-- The `ValueError` message for a missing token (client.py line 32). -/
def tokenMissingMsg : String :=
  "Canvas API token required. Provide as parameter or set CANVAS_TOKEN environment variable."

/-- The `ValueError` message for a missing host URL (client.py line 35). -/
def urlMissingMsg : String :=
  "Canvas URL required. Provide as parameter or set CANVAS_HOST environment variable."

/-- Embeds `CanvasClient.__init__` (client.py lines 17-56) as a function of
the explicit arguments and the environment variables `CANVAS_TOKEN` and
`CANVAS_HOST`: `api_token or os.getenv(...)` falls back on a falsy argument;
a falsy resolved token or URL raises a `ValueError`; a missing trailing
slash is appended to the stored URL.  No later method of the client assigns
`self.api_token` or `self.api_url`, so the embedding of every subsequent
operation takes the configuration as a read-only value. -/
def clientInit (api_token api_url envToken envHost : Option String) :
    Except String ClientConfig :=
  let tok := if pyFalsyOptStr api_token then envToken else api_token
  let url := if pyFalsyOptStr api_url then envHost else api_url
  if pyFalsyOptStr tok then .error tokenMissingMsg
  else if pyFalsyOptStr url then .error urlMissingMsg
  else
    let t := tok.getD ""
    let u := url.getD ""
    .ok ⟨t, if strEndsWithSlash u then u else u ++ "/"⟩

/-- The spec's reading of a credential being missing: neither the explicit
argument nor the environment supplies a non-empty value. -/
def missingAfterFallback (param env : Option String) : Prop :=
  pyFalsyOptStr param = true ∧ pyFalsyOptStr env = true

/-- The date part of a Python `datetime`. -/
structure PyDate where
  year : Nat
  month : Nat
  day : Nat
deriving Repr, DecidableEq

/-- Gregorian leap-year rule, as implemented by Python's `datetime`. -/
def isLeapYear (y : Nat) : Bool :=
  y % 4 = 0 && (!(y % 100 = 0) || y % 400 = 0)

/-- Number of days in a month of a given year. -/
def daysInMonth (y m : Nat) : Nat :=
  if m = 2 then (if isLeapYear y then 29 else 28)
  else if m = 4 || m = 6 || m = 9 || m = 11 then 30
  else 31

/-- Models `datetime.fromisoformat` restricted to inputs of the shape the
caller `_validate_iso_date` forwards (10 characters with hyphens at indices
4 and 7; the function is only consulted after that check): such a string
parses iff its remaining eight characters are digits forming a calendar date
with year at least `MINYEAR = 1`, month 1-12, and day within the month.  On
any other shape the model returns `none`; `_validate_iso_date` never
consults it there. -/
def fromisoformatDate (cs : List Char) : Option PyDate :=
  match cs with
  | [y1, y2, y3, y4, h1, m1, m2, h2, d1, d2] =>
      if h1 = '-' && h2 = '-' && y1.isDigit && y2.isDigit && y3.isDigit && y4.isDigit
          && m1.isDigit && m2.isDigit && d1.isDigit && d2.isDigit then
        let y := (y1.toNat - 48) * 1000 + (y2.toNat - 48) * 100
                  + (y3.toNat - 48) * 10 + (y4.toNat - 48)
        let m := (m1.toNat - 48) * 10 + (m2.toNat - 48)
        let d := (d1.toNat - 48) * 10 + (d2.toNat - 48)
        if 1 ≤ y && 1 ≤ m && m ≤ 12 && 1 ≤ d && d ≤ daysInMonth y m then
          some ⟨y, m, d⟩
        else none
      else none
  | _ => none

/-- The single `ValueError` message `_validate_iso_date` surfaces: both the
failed shape pre-check and a failed `fromisoformat` parse are caught by its
`except ValueError` and re-raised with this text (mcp_server.py line 43). -/
def invalidDateMsg (s : String) : String :=
  "Invalid date format. Expected YYYY-MM-DD, got: " ++ s

/-- Embeds `_validate_iso_date` (mcp_server.py lines 22-43): reject unless
the string has exactly 10 characters with hyphens at indices 4 and 7, then
parse with `fromisoformat`; every failure raises a `ValueError` with the
re-wrapped message. -/
def validate_iso_date (s : String) : Except String PyDate :=
  if s.length ≠ 10 ∨ s.data.get? 4 ≠ some '-' ∨ s.data.get? 7 ≠ some '-' then
    .error (invalidDateMsg s)
  else
    match fromisoformatDate s.data with
    | some d => .ok d
    | none => .error (invalidDateMsg s)

/-- The acceptance condition of claim C6, stated from the claim's words:
exactly 10 characters, hyphens at positions 4 and 7, and the remaining
characters parse as a calendar date (four year digits forming a positive
year, two month digits in 1-12, two day digits within the Gregorian month
length). -/
def calendarDateOkChars (cs : List Char) : Bool :=
  (cs.take 4).all Char.isDigit
    && ((cs.drop 5).take 2).all Char.isDigit
    && ((cs.drop 8).take 2).all Char.isDigit
    && (let y := (cs.take 4).foldl (fun acc c => acc * 10 + (c.toNat - 48)) 0
        let m := ((cs.drop 5).take 2).foldl (fun acc c => acc * 10 + (c.toNat - 48)) 0
        let d := ((cs.drop 8).take 2).foldl (fun acc c => acc * 10 + (c.toNat - 48)) 0
        1 ≤ y && 1 ≤ m && m ≤ 12 && 1 ≤ d && d ≤ daysInMonth y m)

/-- The acceptance condition of claim C6 lifted to strings. -/
def calendarDateOk (s : String) : Bool :=
  calendarDateOkChars s.data

/-- A Python exception crossing the MCP tool boundary: whether it is a
`ValueError` (re-raised there) and its `str()` text. -/
structure PyExn where
  isValueError : Bool
  msg : String
deriving Repr, DecidableEq

/-- Python `datetime` strict ordering restricted to equal times-of-day:
lexicographic on (year, month, day). -/
def PyDate.lt (a b : PyDate) : Bool :=
  a.year < b.year
    || (a.year = b.year && (a.month < b.month
        || (a.month = b.month && a.day < b.day)))

/-- The `ValueError` message raised when the start date is after the end
date (mcp_server.py line 206). -/
def rangeErrMsg (startStr endStr : String) : String :=
  "Start date (" ++ startStr ++ ") must be before end date (" ++ endStr ++ ")"

/-- The `str()` of the `AttributeError` raised when the tool body calls the
absent method `Assignments.get_assignments_by_date_range` (mcp_server.py
line 215; no such method exists in assignments.py). -/
def missingMethodMsg : String :=
  String.singleton quoteChar ++ "Assignments" ++ String.singleton quoteChar
    ++ " object has no attribute " ++ String.singleton quoteChar
    ++ "get_assignments_by_date_range" ++ String.singleton quoteChar

/-- Embeds the MCP tool `get_assignments_by_date_range` (mcp_server.py lines
176-232) as a function of the two date strings and of the outcome of
obtaining the course list from the client (a value, or an exception with its
`ValueError`-ness).  Validation failures and the out-of-order-dates check
raise `ValueError`s, which the tool's `except` clause re-raises; any other
exception — including the `AttributeError` from the call to the missing
method `Assignments.get_assignments_by_date_range`, hit as soon as the
course loop has at least one course — is converted to the returned list
`[dict(error = text)]`.  An empty course list returns the empty sorted
list. -/
def get_assignments_by_date_range (startStr endStr : String)
    (coursesResult : Except PyExn (List Json)) : Except String (List Json) :=
  match validate_iso_date startStr with
  | .error m => .error m
  | .ok startD =>
      match validate_iso_date endStr with
      | .error m => .error m
      | .ok endD =>
          if PyDate.lt endD startD then .error (rangeErrMsg startStr endStr)
          else
            match coursesResult with
            | .error e =>
                if e.isValueError then .error e.msg
                else .ok [.obj (.cons "error" (.str e.msg) .nil)]
            | .ok [] => .ok []
            | .ok (_ :: _) => .ok [.obj (.cons "error" (.str missingMethodMsg) .nil)]


/-- Decidable equality of `Except` results, for evaluating runs on concrete
inputs. -/
instance {ε α : Type} [DecidableEq ε] [DecidableEq α] : DecidableEq (Except ε α) :=
  fun a b =>
    match a, b with
    | .ok x, .ok y =>
        if h : x = y then .isTrue (h ▸ rfl)
        else .isFalse (fun hh => h (by cases hh; rfl))
    | .error x, .error y =>
        if h : x = y then .isTrue (h ▸ rfl)
        else .isFalse (fun hh => h (by cases hh; rfl))
    | .ok _, .error _ => .isFalse (fun hh => by cases hh)
    | .error _, .ok _ => .isFalse (fun hh => by cases hh)

/-- First mock page: items 1 and 2, with a `next` link in the HTTP Link
header. -/
def page1 : HttpResponse :=
  ⟨200, "[1, 2]", some (.arr (.cons (.num 1) (.cons (.num 2) .nil))),
    [("next", "https://school.test/api/v1/assignments?page=2")]⟩

/-- Second mock page: items 3 and 4, with a `next` link. -/
def page2 : HttpResponse :=
  ⟨200, "[3, 4]", some (.arr (.cons (.num 3) (.cons (.num 4) .nil))),
    [("next", "https://school.test/api/v1/assignments?page=3")]⟩

/-- Third mock page: items 5 and 6, no `next` link. -/
def page3 : HttpResponse :=
  ⟨200, "[5, 6]", some (.arr (.cons (.num 5) (.cons (.num 6) .nil))), []⟩

/-- Response for any endpoint the mock server does not serve. -/
def missingPage : HttpResponse := ⟨404, "", none, []⟩

/-- The mock server of claim C1: three pages of an `assignments` collection,
pages 1 and 2 advertising a `next` relation and page 3 not. -/
def threePageServer : Server := fun endpoint _ =>
  if endpoint = "assignments" then page1
  else if endpoint = "assignments?page=2" then page2
  else if endpoint = "assignments?page=3" then page3
  else missingPage

/-- C1: the paginator on the three-page mock server.  The claim states that
consuming the sequence yields the six items of all three pages and issues
three GET requests; the code issues exactly one GET and yields only page
1's items, because it probes `hasattr(response, 'links')` on the decoded
JSON list — which never has a `links` attribute — instead of on the
`requests` response object, so the advertised `next` relation is never
seen. -/
theorem paginate_three_pages_first_page_only :
    paginate threePageServer "assignments" [] 10 = .ok (1, [.num 1, .num 2]) ∧
    paginate threePageServer "assignments" [] 10 ≠
      .ok (3, [.num 1, .num 2, .num 3, .num 4, .num 5, .num 6]) := by
  decide

/-- The mechanism clause of claim C8, read at one pagination run: when the
first response's body decodes to a list and its link metadata advertises a
`next` relation (a non-terminal response in the claim's sense), the loop
iteration does not end there but advances to a new endpoint, so at least two
requests are issued. -/
def advancesOnNextLink (srv : Server) (endpoint : String)
    (params : List (String × Json)) (fuel : Nat) : Prop :=
  let fullParams := if (params.lookup "per_page").isSome then params
                    else params ++ [("per_page", .num 100)]
  (∃ items, (srv endpoint fullParams).jsonBody = some (.arr items)) →
  ((srv endpoint fullParams).links.lookup "next").isSome = true →
  ∃ n items, paginate srv endpoint params fuel = .ok (n, items) ∧ 2 ≤ n

/-- C8 counterexample: on the three-page mock server the first response is an
array carrying a `next` link — not terminal in the claim's sense — yet the
loop ends there without advancing: only one request is issued. -/
theorem paginate_no_advance_on_next_link :
    ¬ advancesOnNextLink threePageServer "assignments" [] 10 := by
  intro h
  obtain ⟨n, items, heq, hn⟩ :=
    h ⟨.cons (.num 1) (.cons (.num 2) .nil), by decide⟩ (by decide)
  have hv : paginate threePageServer "assignments" [] 10 = .ok (1, [.num 1, .num 2]) := by
    decide
  rw [hv] at heq
  cases heq
  omega

/-- C8 as amended: every loop iteration of the paginator ends on its first
response regardless of the server's link metadata (the decoded JSON body the
code probes carries none), so the run is independent of any fuel of at least
one iteration — the loop terminates — and at most one request is ever
issued, making the produced sequence finite for every server, endpoint and
parameter set. -/
theorem paginate_terminates_first_response (srv : Server) (endpoint : String)
    (params : List (String × Json)) (fuel : Nat) (hfuel : 1 ≤ fuel) :
    paginate srv endpoint params fuel = paginate srv endpoint params 1 ∧
    ∀ n items, paginate srv endpoint params fuel = .ok (n, items) → n ≤ 1 := by
  obtain ⟨f, rfl⟩ : ∃ f, fuel = f + 1 := ⟨fuel - 1, by omega⟩
  unfold paginate
  have hbody : ∀ g : Nat,
      paginateAux srv (if (params.lookup "per_page").isSome then params
        else params ++ [("per_page", .num 100)]) (g + 1) endpoint =
      paginateAux srv (if (params.lookup "per_page").isSome then params
        else params ++ [("per_page", .num 100)]) 1 endpoint := by
    intro g
    by_cases he : endpoint = ""
    · simp [paginateAux, he]
    · simp only [paginateAux, he, if_false, ite_false]
      cases clientGet srv endpoint _ with
      | error e => rfl
      | ok v => cases v <;> simp [jsonLinks]
  constructor
  · exact hbody f
  · intro n items hrun
    rw [hbody f] at hrun
    by_cases he : endpoint = ""
    · simp [paginateAux, he] at hrun
      omega
    · simp only [paginateAux, he, if_false, ite_false] at hrun
      cases hg : clientGet srv endpoint
          (if (params.lookup "per_page").isSome then params
            else params ++ [("per_page", .num 100)]) with
      | error e => rw [hg] at hrun; cases hrun
      | ok v =>
          rw [hg] at hrun
          cases v <;> simp only [jsonLinks] at hrun <;> (cases hrun; omega)

/-- Witness for the amended C8 theorem at a concrete run. -/
theorem paginate_terminates_first_response_witness :
    paginate threePageServer "assignments" [] 10 = paginate threePageServer "assignments" [] 1 ∧
    ∀ n items, paginate threePageServer "assignments" [] 10 = .ok (n, items) → n ≤ 1 :=
  paginate_terminates_first_response threePageServer "assignments" [] 10 (by decide)

/-- A 404 whose body is a JSON object without an `errors` key. -/
def c2NoErrorsKeyResp : HttpResponse :=
  ⟨404, "\x7b\"message\": \"not found\"\x7d",
    some (.obj (.cons "message" (.str "not found") .nil)), []⟩

/-- C2 counterexample: at a 404 whose body is JSON-decodable but lacks an
`errors` key, the claim's fallback chain selects the raw body text, while
the code leaves `error_message = str(err)` untouched and raises with the
transport error text. -/
theorem canvas_request_claim_counterexample :
    claimC2check c2NoErrorsKeyResp = false ∧
    canvasRequest c2NoErrorsKeyResp = .apiError 404 .transportText ∧
    claimC2Message c2NoErrorsKeyResp = .bodyText := by
  decide

/-- C2 as amended: for a response whose body is either undecodable or a
decoded JSON object (and whose decodable body is non-empty), the request
outcome matches the amended reference: only 4xx/5xx raise, with the message
being the `errors` field of a decoded object containing that key, the raw
body text for a non-empty undecodable body, and the transport error text
otherwise; non-raising statuses return the parsed JSON for a non-blank body
and the no-content sentinel for an empty or whitespace-only one. -/
theorem canvas_request_amended (r : HttpResponse)
    (hshape : r.jsonBody = none ∨ ∃ fields, r.jsonBody = some (.obj fields))
    (hcons : r.jsonBody ≠ none → r.rawBody ≠ "") :
    canvasRequest r = amendedC2Outcome r := by
  unfold canvasRequest amendedC2Outcome httpErrorMessage amendedC2Message
  by_cases hf : isHttpFailure r.status
  · simp only [hf, if_true]
    rcases hshape with h | ⟨fields, h⟩
    · rw [h]
    · have hb : r.rawBody ≠ "" := hcons (by rw [h]; simp)
      rw [h]
      simp [hb]
  · simp only [hf, if_false, Bool.false_eq_true, ite_false]
    rcases hshape with h | ⟨fields, h⟩
    · rw [h]
      by_cases hb : r.rawBody = ""
      · simp [hb, strBlank]
      · by_cases hs : strBlank r.rawBody <;> simp [hb, hs]
    · have hb : r.rawBody ≠ "" := hcons (by rw [h]; simp)
      rw [h]
      by_cases hs : strBlank r.rawBody <;> simp [hb, hs]

/-- Witness for the amended C2 theorem at the concrete 404 response. -/
theorem canvas_request_amended_witness :
    canvasRequest c2NoErrorsKeyResp = amendedC2Outcome c2NoErrorsKeyResp :=
  canvas_request_amended c2NoErrorsKeyResp
    (Or.inr ⟨.cons "message" (.str "not found") .nil, rfl⟩)
    (fun _ => by decide)

/-- An HTTP-200 GraphQL response whose body carries an empty `errors` array
alongside a `data` field. -/
def gqlEmptyErrorsResp : HttpResponse :=
  ⟨200, "\x7b\"errors\": [], \"data\": \x7b\"x\": 1\x7d\x7d",
    some (.obj (.cons "errors" (.arr .nil)
      (.cons "data" (.obj (.cons "x" (.num 1) .nil)) .nil))), []⟩

/-- C3 counterexample: on an HTTP-200 body with an empty `errors` array the
claim requires `query` to return the `data` field (the array is not
non-empty), but the code's `'errors' in result` test fires on the mere
presence of the key and raises a `CanvasAPIError`. -/
theorem graphql_claim_counterexample :
    claimC3check gqlEmptyErrorsResp = false ∧
    graphqlQuery gqlEmptyErrorsResp = .apiError 200 (.errorsField (.arr .nil)) := by
  decide

/-- C3 as amended: for a response whose body decodes to a JSON object,
`query` raises a `CanvasAPIError` exactly when the transport call fails
(4xx/5xx) or the object contains an `errors` key — regardless of that key's
value, empty array included — and otherwise returns the object's `data`
field, defaulting to the empty dict. -/
theorem graphql_query_amended (r : HttpResponse) (fields : JsonFields)
    (h : r.jsonBody = some (.obj fields)) :
    ((∃ sc m, graphqlQuery r = .apiError sc m) ↔
      (isHttpFailure r.status = true ∨ (fields.lookup "errors").isSome = true)) ∧
    (isHttpFailure r.status = false → fields.lookup "errors" = none →
      graphqlQuery r = .ok ((fields.lookup "data").getD (.obj .nil))) := by
  by_cases hf : isHttpFailure r.status
  · have hq : graphqlQuery r = .apiError r.status (httpErrorMessage r) := by
      unfold graphqlQuery
      simp [hf]
    refine ⟨?_, ?_⟩
    · constructor
      · intro _
        exact Or.inl hf
      · intro _
        exact ⟨r.status, httpErrorMessage r, hq⟩
    · intro hcontra
      rw [hf] at hcontra
      cases hcontra
  · have hq : graphqlQuery r =
        (match fields.lookup "errors" with
          | some v => .apiError r.status (.errorsField v)
          | none => .ok ((fields.lookup "data").getD (.obj .nil))) := by
      unfold graphqlQuery
      rw [h]
      simp [hf]
    rw [hq]
    cases hl : fields.lookup "errors" with
    | none => simp [hf]
    | some v => simp

/-- An HTTP-200 GraphQL response whose body is `data ↦ (x ↦ 1)`. -/
def gqlDataResp : HttpResponse :=
  ⟨200, "\x7b\"data\": \x7b\"x\": 1\x7d\x7d",
    some (.obj (.cons "data" (.obj (.cons "x" (.num 1) .nil)) .nil)), []⟩

/-- Witness for the amended C3 theorem: on body `data ↦ (x ↦ 1)` the query
returns `x ↦ 1`. -/
theorem graphql_query_amended_witness :
    graphqlQuery gqlDataResp = .ok (.obj (.cons "x" (.num 1) .nil)) :=
  (graphql_query_amended gqlDataResp
    (.cons "data" (.obj (.cons "x" (.num 1) .nil)) .nil) rfl).2 (by decide) (by decide)

/-- C4 counterexample: the `Assignments` facade's override of the ID-coercion
helper applies `str()` to the whole dict, so `id: 42` does not coerce to
`"42"` there. -/
theorem assignments_get_item_id_counterexample :
    assignments_get_item_id (.obj (.cons "id" (.num 42) .nil)) ≠ some "42" := by
  decide

/-- C4 as amended: the base helper `BaseResource._get_item_id` — inherited by
the Courses, Users, Modules and Files facades — maps a dict carrying an `id`
field to the string form of that field and a raw identifier to its string
form; the `Assignments` facade overrides it with plain `str()` (mapping
`None` to `None`), which agrees on raw identifiers such as `42` but not on
objects carrying an `id` field. -/
theorem get_item_id_amended :
    (∀ fields v, fields.lookup "id" = some v → base_get_item_id (.obj fields) = pyStr v) ∧
    (∀ n : Int, base_get_item_id (.num n) = toString n) ∧
    base_get_item_id (.obj (.cons "id" (.num 42) .nil)) = "42" ∧
    assignments_get_item_id (.num 42) = some "42" ∧
    assignments_get_item_id .null = none := by
  refine ⟨?_, ?_, by decide, by decide, by decide⟩
  · intro fields v h
    simp [base_get_item_id, h]
  · intro n
    rfl

/-- Witness for the amended C4 theorem: applying the base-helper clause at
the dict `id ↦ 42`. -/
theorem get_item_id_amended_witness :
    base_get_item_id (.obj (.cons "id" (.num 42) .nil)) = pyStr (.num 42) :=
  get_item_id_amended.1 (.cons "id" (.num 42) .nil) (.num 42) rfl

/-- C5: the two halves of the file-upload contract.  With an init response
whose `upload_url` is a non-empty string and an upload host answering the
POST at that URL with a decodable success body, the calls are exactly (init
POST, upload POST to that URL) and the result is the upload host's decoded
JSON body.  With an init response lacking the `upload_url` key, the
`ValueError` is raised after the init POST alone, before any upload POST. -/
theorem files_upload_contract :
    (∀ fields uploadHost u body,
        JsonFields.lookup "upload_url" fields = some (.str u) → u ≠ "" →
        isHttpFailure (uploadHost (Json.str u)).status = false →
        (uploadHost (Json.str u)).jsonBody = some body →
        files_upload (.ok (some (.obj fields))) uploadHost =
          ([.initPost, .uploadPost (.str u)], .ok body)) ∧
    (∀ fields uploadHost,
        JsonFields.lookup "upload_url" fields = none →
        files_upload (.ok (some (.obj fields))) uploadHost =
          ([.initPost], .valueError uploadUrlMissingMsg)) := by
  constructor
  · intro fields uploadHost u body hu hne hst hb
    unfold files_upload
    simp only [Option.getD]
    rw [hu]
    have htru : pyTruthy (.str u) = true := by
      simp [pyTruthy, hne]
    simp [htru, hst, hb]
  · intro fields uploadHost hu
    unfold files_upload
    simp [hu]

/-- The init response of the C5 witness: a single `upload_url` field. -/
def uploadInitFields : JsonFields :=
  .cons "upload_url" (.str "https://uploads.test/target") .nil

/-- The upload host of the C5 witness: every POST answers 200 with body
`id ↦ 7`. -/
def uploadHostOk : Json → HttpResponse :=
  fun _ => ⟨200, "\x7b\"id\": 7\x7d", some (.obj (.cons "id" (.num 7) .nil)), []⟩

/-- Witness for the C5 theorem: the happy-path clause at a concrete init
response and upload host. -/
theorem files_upload_contract_witness :
    files_upload (.ok (some (.obj uploadInitFields))) uploadHostOk =
      ([.initPost, .uploadPost (.str "https://uploads.test/target")],
        .ok (.obj (.cons "id" (.num 7) .nil))) :=
  files_upload_contract.1 uploadInitFields uploadHostOk
    "https://uploads.test/target" (.obj (.cons "id" (.num 7) .nil))
    (by decide) (by decide) (by decide) (by decide)

/-- Falsiness of `a or b` for optional strings: the fallback is falsy exactly
when both operands are. -/
theorem falsy_resolve (a b : Option String) :
    pyFalsyOptStr (if pyFalsyOptStr a then b else a) =
      (pyFalsyOptStr a && pyFalsyOptStr b) := by
  cases hp : pyFalsyOptStr a <;> simp [hp]

/-- A non-falsy optional string holds a non-empty value. -/
theorem getD_ne_empty_of_not_falsy (o : Option String)
    (h : pyFalsyOptStr o = false) : o.getD "" ≠ "" := by
  cases o with
  | none => simp [pyFalsyOptStr] at h
  | some s =>
      simp only [Option.getD]
      simp [pyFalsyOptStr] at h
      exact h

/-- Appending a slash makes the string end with a slash. -/
theorem strEndsWithSlash_append (s : String) :
    strEndsWithSlash (s ++ "/") = true := by
  unfold strEndsWithSlash
  have hdata : (s ++ "/").data = s.data ++ ['/'] := String.data_append s "/"
  rw [hdata, List.getLast?_concat]
  rfl

/-- A string ending with a slash is non-empty. -/
theorem ne_empty_of_strEndsWithSlash (s : String)
    (h : strEndsWithSlash s = true) : s ≠ "" := by
  intro he
  subst he
  simp [strEndsWithSlash] at h

/-- C9: client construction fails exactly when the token or the host is
missing after the environment fallback (no non-empty value from either the
argument or the environment variable); every successfully constructed client
holds a non-empty token and a non-empty host URL ending in a slash.  (The
embedding of every subsequent operation takes the configuration as a
read-only value — no method of `CanvasClient` assigns `self.api_token` or
`self.api_url` after `__init__`.) -/
theorem client_init_contract (pt pu et eh : Option String) :
    ((∃ e, clientInit pt pu et eh = .error e) ↔
      (missingAfterFallback pt et ∨ missingAfterFallback pu eh)) ∧
    ∀ c, clientInit pt pu et eh = .ok c →
      c.api_token ≠ "" ∧ c.api_url ≠ "" ∧ strEndsWithSlash c.api_url = true := by
  have hmt : missingAfterFallback pt et ↔
      (pyFalsyOptStr pt && pyFalsyOptStr et) = true := by
    simp [missingAfterFallback, Bool.and_eq_true]
  have hmu : missingAfterFallback pu eh ↔
      (pyFalsyOptStr pu && pyFalsyOptStr eh) = true := by
    simp [missingAfterFallback, Bool.and_eq_true]
  by_cases h1 : pyFalsyOptStr (if pyFalsyOptStr pt then et else pt) = true
  · constructor
    · rw [hmt, hmu, ← falsy_resolve, ← falsy_resolve]
      constructor
      · intro _
        exact Or.inl h1
      · intro _
        exact ⟨tokenMissingMsg, by unfold clientInit; simp [h1]⟩
    · intro c hc
      unfold clientInit at hc
      simp [h1] at hc
  · by_cases h2 : pyFalsyOptStr (if pyFalsyOptStr pu then eh else pu) = true
    · constructor
      · rw [hmt, hmu, ← falsy_resolve, ← falsy_resolve]
        constructor
        · intro _
          exact Or.inr h2
        · intro _
          exact ⟨urlMissingMsg, by unfold clientInit; simp [h1, h2]⟩
      · intro c hc
        unfold clientInit at hc
        simp [h1, h2] at hc
    · constructor
      · rw [hmt, hmu, ← falsy_resolve, ← falsy_resolve]
        constructor
        · intro ⟨e, he⟩
          unfold clientInit at he
          simp [h1, h2] at he
        · intro hor
          cases hor with
          | inl h => rw [h] at h1; cases h1 rfl
          | inr h => rw [h] at h2; cases h2 rfl
      · intro c hc
        unfold clientInit at hc
        simp [h1, h2] at hc
        have htok := getD_ne_empty_of_not_falsy _ (Bool.not_eq_true _ ▸ h1)
        have hurl := getD_ne_empty_of_not_falsy _ (Bool.not_eq_true _ ▸ h2)
        rw [← hc]
        refine ⟨htok, ?_, ?_⟩
        · by_cases hs : strEndsWithSlash ((if pyFalsyOptStr pu then eh else pu).getD "") = true
          · simpa [hs] using hurl
          · simp only [hs]
            simp
            exact ne_empty_of_strEndsWithSlash _ (strEndsWithSlash_append _)
        · by_cases hs : strEndsWithSlash ((if pyFalsyOptStr pu then eh else pu).getD "") = true
          · simp [hs]
          · simp only [hs]
            simp
            exact strEndsWithSlash_append _

/-- Witness for C9 at concrete credentials: a token and a host without a
trailing slash construct successfully, and the stored host gains the
slash. -/
theorem client_init_contract_witness :
    clientInit (some "token123") (some "https://canvas.test") none none =
      .ok ⟨"token123", "https://canvas.test/"⟩ ∧
    (("token123" : String) ≠ "" ∧ ("https://canvas.test/" : String) ≠ "" ∧
      strEndsWithSlash "https://canvas.test/" = true) := by
  refine ⟨by decide, ?_⟩
  exact (client_init_contract (some "token123") (some "https://canvas.test") none none).2
    ⟨"token123", "https://canvas.test/"⟩ (by decide)

/-- C10: whenever `Assignments.list` does not raise, its value is a dict
whose only key is `assignments`, holding exactly the fully drained item list
of the paginator run on the course's assignments endpoint — no page or
per_page echo and no other pagination metadata, whatever arguments were
supplied. -/
theorem assignments_list_shape (srv : Server) (course_id : Json)
    (a : AssignListArgs) (fuel : Nat) (v : Json)
    (h : assignments_list srv course_id a fuel = .ok v) :
    ∃ n items,
      paginate srv (assignmentsEndpoint course_id) (assignmentsListParams a) fuel
        = .ok (n, items) ∧
      v = .obj (.cons "assignments" (.arr (jsonListOfList items)) .nil) ∧
      JsonFields.keys (.cons "assignments" (.arr (jsonListOfList items)) .nil)
        = ["assignments"] := by
  unfold assignments_list at h
  cases hp : paginate srv (assignmentsEndpoint course_id) (assignmentsListParams a) fuel with
  | error e =>
      rw [hp] at h
      cases h
  | ok p =>
      obtain ⟨n, items⟩ := p
      rw [hp] at h
      cases h
      exact ⟨n, items, rfl, rfl, rfl⟩

/-- A one-page mock server for the assignments collection of course 456. -/
def assignmentsServer : Server := fun endpoint _ =>
  if endpoint = "courses/456/assignments" then
    ⟨200, "[1, 2]", some (.arr (.cons (.num 1) (.cons (.num 2) .nil))), []⟩
  else missingPage

/-- Witness for C10 at a concrete run with page and per_page supplied. -/
theorem assignments_list_shape_witness :
    ∃ n items,
      paginate assignmentsServer (assignmentsEndpoint (.num 456))
        (assignmentsListParams ⟨none, some 1, some 10, none, none⟩) 5
        = .ok (n, items) ∧
      (Json.obj (.cons "assignments" (.arr (.cons (.num 1) (.cons (.num 2) .nil))) .nil))
        = .obj (.cons "assignments" (.arr (jsonListOfList items)) .nil) ∧
      JsonFields.keys (.cons "assignments" (.arr (jsonListOfList items)) .nil)
        = ["assignments"] :=
  assignments_list_shape assignmentsServer (.num 456) ⟨none, some 1, some 10, none, none⟩ 5
    (.obj (.cons "assignments" (.arr (.cons (.num 1) (.cons (.num 2) .nil))) .nil))
    (by decide)

/-- Whether an embedded call returned normally (no raised exception). -/
def exceptAccepts {ε α : Type} : Except ε α → Bool
  | .ok _ => true
  | .error _ => false

/-- The `fromisoformat` model accepts a hyphen-shaped ten-character string
exactly when the claim's calendar-date condition holds of it. -/
theorem fromiso_iff (c0 c1 c2 c3 c5 c6 c8 c9 : Char) :
    (fromisoformatDate [c0, c1, c2, c3, '-', c5, c6, '-', c8, c9]).isSome = true ↔
      calendarDateOkChars [c0, c1, c2, c3, '-', c5, c6, '-', c8, c9] = true := by
  have hyd : [c0, c1, c2, c3].foldl (fun acc c => acc * 10 + (c.toNat - 48)) 0
      = (c0.toNat - 48) * 1000 + (c1.toNat - 48) * 100 + (c2.toNat - 48) * 10
        + (c3.toNat - 48) := by
    show (((0 * 10 + (c0.toNat - 48)) * 10 + (c1.toNat - 48)) * 10 + (c2.toNat - 48)) * 10
        + (c3.toNat - 48) = _
    ring
  have hmd : [c5, c6].foldl (fun acc c => acc * 10 + (c.toNat - 48)) 0
      = (c5.toNat - 48) * 10 + (c6.toNat - 48) := by
    show (0 * 10 + (c5.toNat - 48)) * 10 + (c6.toNat - 48) = _
    ring
  have hdd : [c8, c9].foldl (fun acc c => acc * 10 + (c.toNat - 48)) 0
      = (c8.toNat - 48) * 10 + (c9.toNat - 48) := by
    show (0 * 10 + (c8.toNat - 48)) * 10 + (c9.toNat - 48) = _
    ring
  have ht4 : List.take 4 [c0, c1, c2, c3, '-', c5, c6, '-', c8, c9] = [c0, c1, c2, c3] := rfl
  have ht5 : List.take 2 (List.drop 5 [c0, c1, c2, c3, '-', c5, c6, '-', c8, c9])
      = [c5, c6] := rfl
  have ht8 : List.take 2 (List.drop 8 [c0, c1, c2, c3, '-', c5, c6, '-', c8, c9])
      = [c8, c9] := rfl
  simp only [fromisoformatDate, calendarDateOkChars, ht4, ht5, ht8, hyd, hmd, hdd,
    List.all_cons, List.all_nil, Bool.and_true, eq_self_iff_true, decide_True,
    Bool.true_and]
  set yv := (c0.toNat - 48) * 1000 + (c1.toNat - 48) * 100 + (c2.toNat - 48) * 10 + (c3.toNat - 48) with hy
  set mv := (c5.toNat - 48) * 10 + (c6.toNat - 48) with hm
  set dv := (c8.toNat - 48) * 10 + (c9.toNat - 48) with hdv
  split_ifs with hA hR
  · simp only [Option.isSome_some, Bool.and_eq_true, decide_eq_true_eq] at hA hR ⊢
    tauto
  · simp only [Option.isSome_none, Bool.false_eq_true, false_iff, Bool.and_eq_true,
      decide_eq_true_eq] at hA hR ⊢
    tauto
  · simp only [Option.isSome_none, Bool.false_eq_true, false_iff, Bool.and_eq_true,
      decide_eq_true_eq] at hA ⊢
    tauto

/-- A list of length ten is exactly ten cons cells. -/
theorem exists_ten (l : List Char) (h : l.length = 10) :
    ∃ c0 c1 c2 c3 c4 c5 c6 c7 c8 c9,
      l = [c0, c1, c2, c3, c4, c5, c6, c7, c8, c9] := by
  rcases l with _ | ⟨c0, l⟩
  · simp at h
  rcases l with _ | ⟨c1, l⟩
  · simp at h
  rcases l with _ | ⟨c2, l⟩
  · simp at h
  rcases l with _ | ⟨c3, l⟩
  · simp at h
  rcases l with _ | ⟨c4, l⟩
  · simp at h
  rcases l with _ | ⟨c5, l⟩
  · simp at h
  rcases l with _ | ⟨c6, l⟩
  · simp at h
  rcases l with _ | ⟨c7, l⟩
  · simp at h
  rcases l with _ | ⟨c8, l⟩
  · simp at h
  rcases l with _ | ⟨c9, l⟩
  · simp at h
  rcases l with _ | ⟨c10, l⟩
  · exact ⟨c0, c1, c2, c3, c4, c5, c6, c7, c8, c9, rfl⟩
  · simp at h

/-- The final match of `_validate_iso_date` succeeds exactly when the parse
did. -/
theorem accepts_match (o : Option PyDate) (msg : String) :
    exceptAccepts (match o with
      | some d => (Except.ok d : Except String PyDate)
      | none => Except.error msg) = o.isSome := by
  cases o <;> rfl

/-- C6: the MCP date validator accepts exactly the strings of 10 characters
with hyphens at positions 4 and 7 whose remaining characters parse as a
calendar date; `2024-03-31` parses to year 2024, month 3, day 31, while
`2024/03/31`, `2024-3-31` and `invalid` all raise the validation error. -/
theorem validate_iso_date_characterization :
    (∀ s : String,
      exceptAccepts (validate_iso_date s) = true ↔
        (s.length = 10 ∧ s.data.get? 4 = some '-' ∧ s.data.get? 7 = some '-' ∧
          calendarDateOk s = true)) ∧
    validate_iso_date "2024-03-31" = .ok ⟨2024, 3, 31⟩ ∧
    validate_iso_date "2024/03/31" = .error (invalidDateMsg "2024/03/31") ∧
    validate_iso_date "2024-3-31" = .error (invalidDateMsg "2024-3-31") ∧
    validate_iso_date "invalid" = .error (invalidDateMsg "invalid") := by
  refine ⟨?_, by decide, by decide, by decide, by decide⟩
  intro s
  unfold validate_iso_date calendarDateOk
  by_cases hlen : s.length = 10
  · obtain ⟨c0, c1, c2, c3, c4, c5, c6, c7, c8, c9, hd⟩ := exists_ten s.data hlen
    rw [hd, hlen]
    have hg4 : List.get? [c0, c1, c2, c3, c4, c5, c6, c7, c8, c9] 4 = some c4 := rfl
    have hg7 : List.get? [c0, c1, c2, c3, c4, c5, c6, c7, c8, c9] 7 = some c7 := rfl
    rw [hg4, hg7]
    by_cases h4 : c4 = '-'
    · by_cases h7 : c7 = '-'
      · subst h4
        subst h7
        rw [if_neg (by simp)]
        rw [accepts_match]
        rw [fromiso_iff]
        simp
      · rw [if_pos (by simp [h7])]
        simp [exceptAccepts, h7]
    · rw [if_pos (by simp [h4])]
      simp [exceptAccepts, h4]
  · rw [if_pos (Or.inl hlen)]
    simp [exceptAccepts, hlen]

/-- C7: with two well-formed dates in the wrong order the date-range tool
raises (returns the error, never an error-object value) a `ValueError` whose
message names both dates; with the dates in valid order — and the client
raising no `ValueError` of its own — the tool returns a list (possibly
empty: an empty course collection yields `[]`). -/
theorem date_range_tool_contract (startStr endStr : String) (d1 d2 : PyDate)
    (courses : Except PyExn (List Json))
    (h1 : validate_iso_date startStr = .ok d1)
    (h2 : validate_iso_date endStr = .ok d2)
    (hcourses : ∀ e, courses = .error e → e.isValueError = false) :
    (PyDate.lt d2 d1 = true →
      get_assignments_by_date_range startStr endStr courses
        = .error (rangeErrMsg startStr endStr) ∧
      ∃ pre mid post, rangeErrMsg startStr endStr
        = pre ++ startStr ++ mid ++ endStr ++ post) ∧
    (PyDate.lt d2 d1 = false →
      ∃ l, get_assignments_by_date_range startStr endStr courses = .ok l) := by
  constructor
  · intro hlt
    unfold get_assignments_by_date_range
    rw [h1, h2]
    simp only [hlt, if_true]
    exact ⟨trivial, "Start date (", ") must be before end date (", ")", rfl⟩
  · intro hlt
    unfold get_assignments_by_date_range
    rw [h1, h2]
    simp only [hlt, Bool.false_eq_true, if_false]
    cases courses with
    | error e =>
        have hve := hcourses e rfl
        exact ⟨[Json.obj (.cons "error" (.str e.msg) .nil)], by simp [hve]⟩
    | ok l =>
        cases l with
        | nil => exact ⟨[], rfl⟩
        | cons c rest => exact ⟨_, rfl⟩

/-- Witness for C7: `2024-03-31` after `2024-03-01` raises the range error;
the swapped order returns a list. -/
theorem date_range_tool_contract_witness :
    get_assignments_by_date_range "2024-03-31" "2024-03-01" (.ok [])
      = .error (rangeErrMsg "2024-03-31" "2024-03-01") ∧
    ∃ l, get_assignments_by_date_range "2024-03-01" "2024-03-31" (.ok []) = .ok l := by
  constructor
  · exact ((date_range_tool_contract "2024-03-31" "2024-03-01" ⟨2024, 3, 31⟩ ⟨2024, 3, 1⟩
      (.ok []) (by decide) (by decide) (fun e he => by cases he)).1 (by decide)).1
  · exact (date_range_tool_contract "2024-03-01" "2024-03-31" ⟨2024, 3, 1⟩ ⟨2024, 3, 31⟩
      (.ok []) (by decide) (by decide) (fun e he => by cases he)).2 (by decide)
